import Mathlib

/-!
Verification of `pw_protobuf/size_report/decoder_incremental.cc`.

The file under verification is a size-report harness: a fixed encoded
buffer, a `TestDecodeHandler` whose `ProcessField` dispatches seven field
numbers to two `int32_t` outputs, and a `main` that runs one decode pass
and stores the sum of the two outputs through a volatile global pointer.

The handler and `main` are embedded directly from the source. The
`pw::protobuf::Decoder` library itself is not part of the given source,
so the decode pass (varint tags, wire types, zigzag decoding) is modelled
from the specification where a claim needs it; such definitions carry a
`Modelled from the spec:` doc comment.
-/

namespace DecoderIncremental

/-- `pw::Status` as observed by this file: `ProcessField` returns
`pw::Status::OK`, and the decoder operations either succeed (`Ok`) or
fail (`DataLoss`). -/
inductive Status where
  | Ok : Status
  | DataLoss : Status
deriving DecidableEq, Repr

/-- The handler object of the source: two mutable `int32_t` members with
in-class initializers `= 0` (`test_int32 = 0; test_sint32 = 0;`). -/
structure TestDecodeHandler where
  test_int32 : Int
  test_sint32 : Int
deriving DecidableEq, Repr

/-- A freshly constructed `TestDecodeHandler`: both members default to 0. -/
def handlerInit : TestDecodeHandler := { test_int32 := 0, test_sint32 := 0 }

/-- Outcome of a typed read operation (`ReadInt32` / `ReadSint32`): on a
status that `.ok()` holds for, the read wrote the value into the output
argument (`some v`); otherwise no value was written (`none`). -/
def ReadResult : Type := Option Int

/-- `TestDecodeHandler::ProcessField`, embedded from the source switch.
The two typed reads the body may perform are passed in as their outcomes
(`readInt32`, `readSint32`): case 1/3/4/5 consults `readInt32` and writes
`test_int32` (the read value on success, `0` on failure); case 2/6/7
consults `readSint32` and writes `test_sint32` likewise; every other
field number falls through the switch. The function always reaches
`return pw::Status::OK`. -/
def processField (readInt32 readSint32 : Option Int) (field_number : Nat)
    (h : TestDecodeHandler) : Status × TestDecodeHandler :=
  let h1 :=
    match field_number with
    | 1 =>
      match readInt32 with
      | some v => { h with test_int32 := v }
      | none => { h with test_int32 := 0 }
    | 2 =>
      match readSint32 with
      | some v => { h with test_sint32 := v }
      | none => { h with test_sint32 := 0 }
    | 3 =>
      match readInt32 with
      | some v => { h with test_int32 := v }
      | none => { h with test_int32 := 0 }
    | 4 =>
      match readInt32 with
      | some v => { h with test_int32 := v }
      | none => { h with test_int32 := 0 }
    | 5 =>
      match readInt32 with
      | some v => { h with test_int32 := v }
      | none => { h with test_int32 := 0 }
    | 6 =>
      match readSint32 with
      | some v => { h with test_sint32 := v }
      | none => { h with test_sint32 := 0 }
    | 7 =>
      match readSint32 with
      | some v => { h with test_sint32 := v }
      | none => { h with test_sint32 := 0 }
    | _ => h
  (Status.Ok, h1)

/-- The field numbers of the switch cases that touch `test_int32`. -/
def int32Fields : List Nat := [1, 3, 4, 5]

/-- The field numbers of the switch cases that touch `test_sint32`. -/
def sint32Fields : List Nat := [2, 6, 7]

/-- All field numbers handled by the switch. -/
def handledFields : List Nat := [1, 2, 3, 4, 5, 6, 7]

/-- One `ProcessField` invocation as seen by the handler: the outcomes of
the two typed reads the body could perform, and the field number. -/
structure FieldCall where
  readInt32 : Option Int
  readSint32 : Option Int
  field_number : Nat

/-- A sequence of `ProcessField` invocations applied to a handler, as a
decode pass performs them (one per encountered field). -/
def runCalls (calls : List FieldCall) (h : TestDecodeHandler) :
    TestDecodeHandler :=
  calls.foldl
    (fun h c => (processField c.readInt32 c.readSint32 c.field_number h).2) h

/-- The fixed compile-time byte sequence `encoded_proto` of the source:
`{0x08, 0x2a, 0x10, 0x19}`. -/
def encoded_proto : List Nat := [0x08, 0x2a, 0x10, 0x19]

/-- Modelled from the spec: base-128 varint decoding, the encoding the
unseen decoder library consumes (each byte holds 7 payload bits, the high
bit marks continuation). Returns the decoded value and remaining bytes. -/
def decodeVarint : List Nat → Option (Nat × List Nat)
  | [] => none
  | b :: rest =>
    if b < 128 then some (b, rest)
    else
      match decodeVarint rest with
      | some (v, rest1) => some (b % 128 + 128 * v, rest1)
      | none => none

/-- Truncation of an unsigned varint value to a signed 32-bit integer,
as `ReadInt32` stores it into an `int32_t`. -/
def toInt32 (n : Nat) : Int :=
  let m : Int := (n : Int) % 4294967296
  if m < 2147483648 then m else m - 4294967296

/-- Wrap of a signed value into the `int32_t` range. -/
def wrapInt32 (i : Int) : Int :=
  let m := i % 4294967296
  if m < 2147483648 then m else m - 4294967296

/-- Modelled from the spec: zigzag decoding, mapping the unsigned varint
payload back to a signed value (even `n` to `n / 2`, odd `n` to
`-(n / 2) - 1`), as `ReadSint32` of the unseen decoder performs before
storing into an `int32_t`. -/
def zigzagDecode (n : Nat) : Int :=
  if n % 2 = 0 then (n / 2 : Int) else -((n / 2 : Int)) - 1

/-- Modelled from the spec: one decode pass of the unseen
`pw::protobuf::Decoder` over a byte buffer. Each field is a varint tag
(field number `tag / 8`, wire type `tag % 8`) followed by its payload;
for the varint wire type (0) the payload is one varint, handed to
`ProcessField` as the outcomes of `ReadInt32` (plain truncation) and
`ReadSint32` (zigzag). Malformed input stops the pass with `DataLoss`;
the pass also stops if the handler returns a non-ok status. `fuel`
bounds the recursion; callers supply the buffer length, which suffices
since every parsed field consumes at least one byte. -/
def decodeLoop : Nat → List Nat → TestDecodeHandler → Status × TestDecodeHandler
  | _, [], h => (Status.Ok, h)
  | 0, _ :: _, h => (Status.DataLoss, h)
  | fuel + 1, bytes, h =>
    match decodeVarint bytes with
    | none => (Status.DataLoss, h)
    | some (tag, rest) =>
      if tag % 8 = 0 then
        match decodeVarint rest with
        | none => (Status.DataLoss, h)
        | some (value, rest1) =>
          let r := processField (some (toInt32 value))
            (some (wrapInt32 (zigzagDecode value))) (tag / 8) h
          match r.1 with
          | Status.Ok => decodeLoop fuel rest1 r.2
          | s => (s, r.2)
      else (Status.DataLoss, h)

/-- Modelled from the spec: `Decoder::Decode` on a byte span, starting
from a given handler state. -/
def decode (bytes : List Nat) (h : TestDecodeHandler) :
    Status × TestDecodeHandler :=
  decodeLoop bytes.length bytes h

/-- Modelled from the spec: the sequence of fields a decode pass extracts
from a buffer, as (field number, raw varint payload) pairs; `none` on
malformed input. -/
def decodeFields : Nat → List Nat → Option (List (Nat × Nat))
  | _, [] => some []
  | 0, _ :: _ => none
  | fuel + 1, bytes =>
    match decodeVarint bytes with
    | none => none
    | some (tag, rest) =>
      if tag % 8 = 0 then
        match decodeVarint rest with
        | none => none
        | some (value, rest1) =>
          match decodeFields fuel rest1 with
          | some fs => some ((tag / 8, value) :: fs)
          | none => none
      else none

/-- The fields of a buffer, with fuel set to the buffer length. -/
def fieldsOf (bytes : List Nat) : Option (List (Nat × Nat)) :=
  decodeFields bytes.length bytes

/-- The observable outcome of running `main`: the status `Decode`
returned, the handler afterwards, the value stored through
`non_optimizable_pointer`, the value held by that pointer at the moment
of the store, and the return value of `main`. -/
structure MainOutcome where
  decodeStatus : Status
  handler : TestDecodeHandler
  storedValue : Int
  storeTarget : Option Nat
  exitCode : Int
deriving DecidableEq, Repr

/-- The global `int* volatile non_optimizable_pointer;`: a namespace-scope
pointer with no initializer, hence zero-initialized (null, modelled as
`none`); no statement in the file ever assigns to it. -/
def non_optimizable_pointer : Option Nat := none

/-- `main`, embedded from the source, generalized over the input buffer
(the source passes `encoded_proto`): construct the decoder and a fresh
handler, run `Decode` (its returned status is not consulted), store
`handler.test_int32 + handler.test_sint32` through
`non_optimizable_pointer`, and return 0. -/
def mainOn (bytes : List Nat) : MainOutcome :=
  let handler := handlerInit
  let r := decode bytes handler
  { decodeStatus := r.1
    handler := r.2
    storedValue := r.2.test_int32 + r.2.test_sint32
    storeTarget := non_optimizable_pointer
    exitCode := 0 }

/-- The run of `main` exactly as the source performs it, on
`encoded_proto`. -/
def mainRun : MainOutcome := mainOn encoded_proto

/-! Helper lemmas about `processField`, shared by several results. -/

/-- The first component of `processField` is syntactically
`pw::Status::OK`. -/
theorem pf_status (rI rS : Option Int) (fn : Nat) (h : TestDecodeHandler) :
    (processField rI rS fn h).1 = Status.Ok := rfl

/-- A field number outside `int32Fields` leaves `test_int32` untouched. -/
theorem pf_not_int32 (fn : Nat) (rI rS : Option Int) (h : TestDecodeHandler)
    (hm : fn ∉ int32Fields) :
    (processField rI rS fn h).2.test_int32 = h.test_int32 := by
  match fn, hm with
  | 0, _ => rfl
  | 1, hm => exact absurd (by decide) hm
  | 2, _ => cases rS <;> rfl
  | 3, hm => exact absurd (by decide) hm
  | 4, hm => exact absurd (by decide) hm
  | 5, hm => exact absurd (by decide) hm
  | 6, _ => cases rS <;> rfl
  | 7, _ => cases rS <;> rfl
  | n + 8, _ => rfl

/-- A field number outside `sint32Fields` leaves `test_sint32`
untouched. -/
theorem pf_not_sint32 (fn : Nat) (rI rS : Option Int) (h : TestDecodeHandler)
    (hm : fn ∉ sint32Fields) :
    (processField rI rS fn h).2.test_sint32 = h.test_sint32 := by
  match fn, hm with
  | 0, _ => rfl
  | 1, _ => cases rI <;> rfl
  | 2, hm => exact absurd (by decide) hm
  | 3, _ => cases rI <;> rfl
  | 4, _ => cases rI <;> rfl
  | 5, _ => cases rI <;> rfl
  | 6, hm => exact absurd (by decide) hm
  | 7, hm => exact absurd (by decide) hm
  | n + 8, _ => rfl

/-- A field number outside the switch leaves the whole handler
untouched. -/
theorem pf_unhandled (fn : Nat) (rI rS : Option Int) (h : TestDecodeHandler)
    (hm : fn ∉ handledFields) :
    (processField rI rS fn h).2 = h := by
  match fn, hm with
  | 0, _ => rfl
  | 1, hm => exact absurd (by decide) hm
  | 2, hm => exact absurd (by decide) hm
  | 3, hm => exact absurd (by decide) hm
  | 4, hm => exact absurd (by decide) hm
  | 5, hm => exact absurd (by decide) hm
  | 6, hm => exact absurd (by decide) hm
  | 7, hm => exact absurd (by decide) hm
  | n + 8, _ => rfl

/-- A run of `ProcessField` calls none of which carries a field number in
`int32Fields` leaves `test_int32` where it started. -/
theorem runCalls_int32_frame (calls : List FieldCall) (h : TestDecodeHandler)
    (hc : ∀ c ∈ calls, c.field_number ∉ int32Fields) :
    (runCalls calls h).test_int32 = h.test_int32 := by
  induction calls generalizing h with
  | nil => rfl
  | cons c cs ih =>
    have hstep := pf_not_int32 c.field_number c.readInt32 c.readSint32 h
      (hc c (List.mem_cons_self c cs))
    have htail := ih ((processField c.readInt32 c.readSint32 c.field_number h).2)
      (fun d hd => hc d (List.mem_cons_of_mem c hd))
    simpa [runCalls, List.foldl_cons, hstep] using htail

/-- A run of `ProcessField` calls none of which carries a field number in
`sint32Fields` leaves `test_sint32` where it started. -/
theorem runCalls_sint32_frame (calls : List FieldCall) (h : TestDecodeHandler)
    (hc : ∀ c ∈ calls, c.field_number ∉ sint32Fields) :
    (runCalls calls h).test_sint32 = h.test_sint32 := by
  induction calls generalizing h with
  | nil => rfl
  | cons c cs ih =>
    have hstep := pf_not_sint32 c.field_number c.readInt32 c.readSint32 h
      (hc c (List.mem_cons_self c cs))
    have htail := ih ((processField c.readInt32 c.readSint32 c.field_number h).2)
      (fun d hd => hc d (List.mem_cons_of_mem c hd))
    simpa [runCalls, List.foldl_cons, hstep] using htail

/-! The claims. -/

/-- C1: After `main` constructs a `Decoder`, registers a
`TestDecodeHandler`, and calls `Decode` on the fixed 4-byte buffer
`encoded_proto = \x7b0x08, 0x2a, 0x10, 0x19\x7d`, the handler fields
satisfy `test_int32 == 42` and `test_sint32 == -13`. -/
theorem main_decode_yields_42_and_neg13 :
    mainRun.handler.test_int32 = 42 ∧ mainRun.handler.test_sint32 = -13 := by
  decide

/-- C2: For every handled field number (1 through 7), if the typed read
operation returns a non-ok status, `ProcessField` writes zero into the
corresponding output integer (`test_int32` for 1, 3, 4, 5; `test_sint32`
for 2, 6, 7) and returns `pw::Status::OK`, so the decode pass continues
to the next field rather than aborting. -/
theorem processField_failed_read_writes_zero_and_continues
    (fn : Nat) (rI rS : Option Int) (h : TestDecodeHandler) :
    (fn ∈ int32Fields → rI = none →
      (processField rI rS fn h).2.test_int32 = 0 ∧
        (processField rI rS fn h).1 = Status.Ok) ∧
    (fn ∈ sint32Fields → rS = none →
      (processField rI rS fn h).2.test_sint32 = 0 ∧
        (processField rI rS fn h).1 = Status.Ok) := by
  constructor
  · intro hmem hr
    subst hr
    have hfn : fn = 1 ∨ fn = 3 ∨ fn = 4 ∨ fn = 5 := by
      simpa [int32Fields] using hmem
    rcases hfn with rfl | rfl | rfl | rfl <;> exact ⟨rfl, rfl⟩
  · intro hmem hr
    subst hr
    have hfn : fn = 2 ∨ fn = 6 ∨ fn = 7 := by
      simpa [sint32Fields] using hmem
    rcases hfn with rfl | rfl | rfl <;> exact ⟨rfl, rfl⟩

/-- Witness for C2: at field number 1 with a failed `ReadInt32`, and at
field number 2 with a failed `ReadSint32`. -/
theorem processField_failed_read_writes_zero_and_continues_w :
    ((processField none (some 9) 1 handlerInit).2.test_int32 = 0 ∧
      (processField none (some 9) 1 handlerInit).1 = Status.Ok) ∧
    ((processField (some 9) none 2 handlerInit).2.test_sint32 = 0 ∧
      (processField (some 9) none 2 handlerInit).1 = Status.Ok) :=
  ⟨(processField_failed_read_writes_zero_and_continues 1 none (some 9)
      handlerInit).1 (by decide) rfl,
   (processField_failed_read_writes_zero_and_continues 2 (some 9) none
      handlerInit).2 (by decide) rfl⟩

/-- C3: `ProcessField` is a fixed mapping from seven field numbers to two
output slots: for field numbers 1, 3, 4 and 5 a successful `ReadInt32`
lands in `test_int32` (leaving `test_sint32` alone), for 2, 6 and 7 a
successful `ReadSint32` lands in `test_sint32` (leaving `test_int32`
alone), and no other field number writes either slot. -/
theorem processField_fixed_dispatch_table
    (fn : Nat) (v : Int) (rI rS : Option Int) (h : TestDecodeHandler) :
    (fn ∈ int32Fields →
      (processField (some v) rS fn h).2.test_int32 = v ∧
        (processField (some v) rS fn h).2.test_sint32 = h.test_sint32) ∧
    (fn ∈ sint32Fields →
      (processField rI (some v) fn h).2.test_sint32 = v ∧
        (processField rI (some v) fn h).2.test_int32 = h.test_int32) ∧
    (fn ∉ handledFields → (processField rI rS fn h).2 = h) := by
  refine ⟨?_, ?_, ?_⟩
  · intro hmem
    have hfn : fn = 1 ∨ fn = 3 ∨ fn = 4 ∨ fn = 5 := by
      simpa [int32Fields] using hmem
    rcases hfn with rfl | rfl | rfl | rfl <;> exact ⟨rfl, rfl⟩
  · intro hmem
    have hfn : fn = 2 ∨ fn = 6 ∨ fn = 7 := by
      simpa [sint32Fields] using hmem
    rcases hfn with rfl | rfl | rfl <;> exact ⟨rfl, rfl⟩
  · intro hmem
    exact pf_unhandled fn rI rS h hmem

/-- Witness for C3: field number 3 writes `test_int32`, field number 6
writes `test_sint32`, and field number 8 writes neither. -/
theorem processField_fixed_dispatch_table_w :
    ((processField (some 5) none 3 handlerInit).2.test_int32 = 5 ∧
      (processField (some 5) none 3 handlerInit).2.test_sint32 =
        handlerInit.test_sint32) ∧
    ((processField none (some 5) 6 handlerInit).2.test_sint32 = 5 ∧
      (processField none (some 5) 6 handlerInit).2.test_int32 =
        handlerInit.test_int32) ∧
    (processField none none 8 handlerInit).2 = handlerInit :=
  ⟨(processField_fixed_dispatch_table 3 5 none none handlerInit).1 (by decide),
   (processField_fixed_dispatch_table 6 5 none none handlerInit).2.1 (by decide),
   (processField_fixed_dispatch_table 8 5 none none handlerInit).2.2 (by decide)⟩

/-- C4: `ProcessField` never propagates an error: for every field number,
every pair of read outcomes and every handler state, it returns
`pw::Status::OK`. -/
theorem processField_always_returns_ok
    (fn : Nat) (rI rS : Option Int) (h : TestDecodeHandler) :
    (processField rI rS fn h).1 = Status.Ok := rfl

/-- C5: The two output integers of a freshly constructed
`TestDecodeHandler` default to zero, and after any sequence of
`ProcessField` invocations (as a decode pass performs, one per field
seen) each integer still holds zero unless a field number mapped to it
(1, 3, 4, 5 for `test_int32`; 2, 6, 7 for `test_sint32`) occurred among
the calls. -/
theorem handler_zero_unless_mapped_field_seen :
    handlerInit.test_int32 = 0 ∧ handlerInit.test_sint32 = 0 ∧
    ∀ calls : List FieldCall,
      ((∀ c ∈ calls, c.field_number ∉ int32Fields) →
        (runCalls calls handlerInit).test_int32 = 0) ∧
      ((∀ c ∈ calls, c.field_number ∉ sint32Fields) →
        (runCalls calls handlerInit).test_sint32 = 0) := by
  refine ⟨rfl, rfl, fun calls => ⟨fun hc => ?_, fun hc => ?_⟩⟩
  · simpa using runCalls_int32_frame calls handlerInit hc
  · simpa using runCalls_sint32_frame calls handlerInit hc

/-- Witness for C5: a pass that only sees field numbers 2 and 9 leaves
`test_int32` at zero, and one that only sees 1 and 9 leaves `test_sint32`
at zero. -/
theorem handler_zero_unless_mapped_field_seen_w :
    (runCalls [⟨some 4, some 4, 2⟩, ⟨some 4, some 4, 9⟩]
      handlerInit).test_int32 = 0 ∧
    (runCalls [⟨some 4, some 4, 1⟩, ⟨some 4, some 4, 9⟩]
      handlerInit).test_sint32 = 0 :=
  ⟨(handler_zero_unless_mapped_field_seen.2.2
      [⟨some 4, some 4, 2⟩, ⟨some 4, some 4, 9⟩]).1 (by decide),
   (handler_zero_unless_mapped_field_seen.2.2
      [⟨some 4, some 4, 1⟩, ⟨some 4, some 4, 9⟩]).2 (by decide)⟩

/-- Counterexample for C6: the fixed buffer `encoded_proto` decodes to
exactly two protobuf-style fields, not four: the field list the pass
extracts is `[(1, 42), (2, 25)]`, of length 2. -/
theorem encoded_proto_not_four_fields :
    fieldsOf encoded_proto = some [(1, 42), (2, 25)] ∧
    ([(1, 42), (2, 25)] : List (Nat × Nat)).length ≠ 4 := by
  decide

/-- C6 (amended): the fixed, compile-time byte sequence `encoded_proto`
is four bytes representing two encoded protobuf-style fields, consisting
of two pairs of tag+value bytes (`0x08 0x2a` encoding field 1 with raw
value 42, and `0x10 0x19` encoding field 2 with raw value 25). -/
theorem encoded_proto_two_tag_value_pairs :
    encoded_proto.length = 4 ∧
    encoded_proto = [0x08, 0x2a] ++ [0x10, 0x19] ∧
    fieldsOf [0x08, 0x2a] = some [(1, 42)] ∧
    fieldsOf [0x10, 0x19] = some [(2, 25)] ∧
    fieldsOf encoded_proto = some [(1, 42), (2, 25)] := by
  decide

/-- C7: during one decode pass over the fixed buffer `encoded_proto`,
each handler integer is updated at most once: the pass extracts the
fields `[(1, 42), (2, 25)]`, at most one of which maps to `test_int32`
and at most one to `test_sint32`, and a `ProcessField` call with a field
number not mapped to a slot leaves that slot untouched. -/
theorem fixed_buffer_updates_each_slot_at_most_once :
    (fieldsOf encoded_proto = some [(1, 42), (2, 25)] ∧
      List.countP (fun f => decide (f.1 ∈ int32Fields))
        ([(1, 42), (2, 25)] : List (Nat × Nat)) ≤ 1 ∧
      List.countP (fun f => decide (f.1 ∈ sint32Fields))
        ([(1, 42), (2, 25)] : List (Nat × Nat)) ≤ 1) ∧
    (∀ (fn : Nat) (rI rS : Option Int) (h : TestDecodeHandler),
      (fn ∉ int32Fields →
        (processField rI rS fn h).2.test_int32 = h.test_int32) ∧
      (fn ∉ sint32Fields →
        (processField rI rS fn h).2.test_sint32 = h.test_sint32)) := by
  refine ⟨by decide, fun fn rI rS h => ⟨fun hm => ?_, fun hm => ?_⟩⟩
  · exact pf_not_int32 fn rI rS h hm
  · exact pf_not_sint32 fn rI rS h hm

/-- Witness for C7: at field number 2 the call leaves `test_int32`
untouched, and at field number 1 it leaves `test_sint32` untouched. -/
theorem fixed_buffer_updates_each_slot_at_most_once_w :
    (processField (some 4) (some 4) 2 handlerInit).2.test_int32 =
      handlerInit.test_int32 ∧
    (processField (some 4) (some 4) 1 handlerInit).2.test_sint32 =
      handlerInit.test_sint32 :=
  ⟨((fixed_buffer_updates_each_slot_at_most_once.2 2 (some 4) (some 4)
      handlerInit).1 (by decide)),
   ((fixed_buffer_updates_each_slot_at_most_once.2 1 (some 4) (some 4)
      handlerInit).2 (by decide))⟩

/-- C8: every single invocation of `ProcessField` modifies at most one of
the two output fields: a call with field number 1, 3, 4 or 5 leaves
`test_sint32` unchanged; a call with field number 2, 6 or 7 leaves
`test_int32` unchanged; and a call with any field number outside 1
through 7 leaves both unchanged while still returning `pw::Status::OK`. -/
theorem processField_single_call_frame
    (fn : Nat) (rI rS : Option Int) (h : TestDecodeHandler) :
    (fn ∈ int32Fields →
      (processField rI rS fn h).2.test_sint32 = h.test_sint32) ∧
    (fn ∈ sint32Fields →
      (processField rI rS fn h).2.test_int32 = h.test_int32) ∧
    (fn ∉ handledFields →
      (processField rI rS fn h).2 = h ∧
        (processField rI rS fn h).1 = Status.Ok) := by
  refine ⟨fun hmem => ?_, fun hmem => ?_, fun hmem => ⟨?_, rfl⟩⟩
  · refine pf_not_sint32 fn rI rS h ?_
    have hfn : fn = 1 ∨ fn = 3 ∨ fn = 4 ∨ fn = 5 := by
      simpa [int32Fields] using hmem
    rcases hfn with rfl | rfl | rfl | rfl <;> decide
  · refine pf_not_int32 fn rI rS h ?_
    have hfn : fn = 2 ∨ fn = 6 ∨ fn = 7 := by
      simpa [sint32Fields] using hmem
    rcases hfn with rfl | rfl | rfl <;> decide
  · exact pf_unhandled fn rI rS h hmem

/-- Witness for C8: a call with field number 4 leaves `test_sint32`
unchanged, one with field number 7 leaves `test_int32` unchanged, and
one with field number 0 leaves the handler unchanged and returns OK. -/
theorem processField_single_call_frame_w :
    (processField (some 3) (some 3) 4 handlerInit).2.test_sint32 =
      handlerInit.test_sint32 ∧
    (processField (some 3) (some 3) 7 handlerInit).2.test_int32 =
      handlerInit.test_int32 ∧
    ((processField (some 3) (some 3) 0 handlerInit).2 = handlerInit ∧
      (processField (some 3) (some 3) 0 handlerInit).1 = Status.Ok) :=
  ⟨(processField_single_call_frame 4 (some 3) (some 3) handlerInit).1
      (by decide),
   (processField_single_call_frame 7 (some 3) (some 3) handlerInit).2.1
      (by decide),
   (processField_single_call_frame 0 (some 3) (some 3) handlerInit).2.2
      (by decide)⟩

/-- C9: `main` ignores the status returned by `Decoder::Decode` and
unconditionally returns 0: on every input buffer the exit code is 0, and
in particular it is 0 both on `encoded_proto` (where the decode
succeeds) and on the truncated buffer `[0x08]` (where it fails). -/
theorem main_ignores_decode_status :
    (∀ bytes : List Nat, (mainOn bytes).exitCode = 0) ∧
    (mainOn encoded_proto).decodeStatus = Status.Ok ∧
    (mainOn [0x08]).decodeStatus = Status.DataLoss :=
  ⟨fun _ => rfl, by decide, by decide⟩

/-- C10: the global volatile pointer `non_optimizable_pointer` is
zero-initialized (null) and no statement of the file assigns it before
`main` stores `handler.test_int32 + handler.test_sint32` through it, so
on every input buffer the store goes through a null pointer while
carrying that sum. -/
theorem main_stores_through_null
    (bytes : List Nat) :
    (mainOn bytes).storeTarget = non_optimizable_pointer ∧
    non_optimizable_pointer = none ∧
    (mainOn bytes).storedValue =
      (mainOn bytes).handler.test_int32 + (mainOn bytes).handler.test_sint32 :=
  ⟨rfl, rfl, rfl⟩

end DecoderIncremental
